import Mathlib

/-!
Verification of the Sculpt-Architect yoga sequence builder against its
specification.  The development shallowly embeds the playback-timer logic of
`src/components/Profile.tsx` (component `PublicSequenceView`), the CRUD
wrappers of `src/lib/supabaseService.ts` and `src/lib/userProfileService.ts`,
and the pose-export utility script.  JavaScript numbers are modelled as
rationals (`ℚ`), nullable values as `Option`, and thrown exceptions as
`Except`.
-/

namespace SculptArchitect

/-! ## Timeline items and timer state (Profile.tsx, PublicSequenceView) -/

/-- A flattened timeline entry: `TimelineItem` of `src/lib/timeUtils`,
as consumed by `Profile.tsx` (fields `id`, `startTime`, `endTime`). -/
structure TimelineItem where
  id : String
  startTime : ℚ
  endTime : ℚ
  deriving Repr, DecidableEq

/-- The playback state touched by the timer callback: React state
`currentTime`, `isPlaying`, `activeItemId`, `currentItemRemaining` and the
ref `lastUpdateTimeRef` of `PublicSequenceView`. -/
structure TimerState where
  currentTime : ℚ
  lastUpdateTime : ℚ
  isPlaying : Bool
  activeItemId : Option String
  currentItemRemaining : ℚ
  deriving Repr, DecidableEq

/-- `timeline.length > 0 ? timeline[timeline.length - 1].endTime : 0`
(Profile.tsx, `updateTimer`, end-of-sequence check). -/
def totalDurationOf (timeline : List TimelineItem) : ℚ :=
  match timeline.getLast? with
  | some l => l.endTime
  | none => 0

/-- `newTime >= item.startTime && newTime < item.endTime`
(the predicate of the `timeline.find` calls in Profile.tsx). -/
def containsTime (t : ℚ) (item : TimelineItem) : Bool :=
  decide (item.startTime ≤ t) && decide (t < item.endTime)

/-- The body of `updateTimer` in Profile.tsx (lines 1454-1510): reads the
clock (`now`), computes `elapsed = (now - lastUpdateTimeRef.current) / 1000`,
stores `now` back into the ref, scales by `playbackSpeed`, and updates
`currentTime` via the functional setter, locating the active item and
clamping to the total duration at the end of the timeline. -/
def updateTimer (now playbackSpeed : ℚ) (timeline : List TimelineItem)
    (s : TimerState) : TimerState :=
  let elapsed := (now - s.lastUpdateTime) / 1000
  let timeIncrement := elapsed * playbackSpeed
  let newTime := s.currentTime + timeIncrement
  match timeline.find? (containsTime newTime) with
  | some currentItem =>
      { s with
        lastUpdateTime := now
        currentTime := newTime
        activeItemId := some currentItem.id
        currentItemRemaining := max 0 (currentItem.endTime - newTime) }
  | none =>
      let totalDuration := totalDurationOf timeline
      if totalDuration ≤ newTime then
        { s with
          lastUpdateTime := now
          currentTime := totalDuration
          isPlaying := false
          activeItemId := none
          currentItemRemaining := 0 }
      else
        { s with
          lastUpdateTime := now
          currentTime := newTime
          activeItemId := none
          currentItemRemaining := 0 }

/-- The `intervalMs` constant of the timer effect in Profile.tsx: the timer
fires every 100 milliseconds.  `updateTimer` takes no such argument, so the
period cannot enter the playback position. -/
def intervalMs : ℚ := 100

/-- The progress-bar expression of Profile.tsx line 2056:
`totalDuration > 0 ? Math.min(100, Math.max(0, (currentTime / totalDuration) * 100)) : 0`. -/
def progressValue (currentTime totalDuration : ℚ) : ℚ :=
  if 0 < totalDuration then min 100 (max 0 (currentTime / totalDuration * 100))
  else 0

/-- Modelled from the spec: the timelines consumed by the timer are produced
by `flattenSequenceToTimeline` of `src/lib/timeUtils`, a module whose source
file is not among the provided files (only its import and call sites are).
The specification describes its output as a "flat timeline", "a precomputed
flat list of (start, end) intervals" obtained by flattening nested
group/round structures: every interval has nonnegative length and consecutive
intervals abut, each startTime being the previous endTime. -/
def FlatTimeline (timeline : List TimelineItem) : Prop :=
  (∀ item ∈ timeline, item.startTime ≤ item.endTime) ∧
  timeline.Chain' (fun a b => a.endTime = b.startTime)

theorem flatTimeline_tail {a : TimelineItem} {rest : List TimelineItem}
    (h : FlatTimeline (a :: rest)) : FlatTimeline rest := by
  obtain ⟨hlen, hchain⟩ := h
  exact ⟨fun x hx => hlen x (List.mem_cons_of_mem a hx), hchain.tail⟩

/-- In a flat timeline, every interval ends no later than the last one. -/
theorem endTime_le_total (timeline : List TimelineItem)
    (hflat : FlatTimeline timeline) :
    ∀ item ∈ timeline, item.endTime ≤ totalDurationOf timeline := by
  induction timeline with
  | nil => intro item h; cases h
  | cons a rest ih =>
    intro item hmem
    cases rest with
    | nil =>
      rcases List.mem_singleton.mp hmem with rfl
      simp [totalDurationOf]
    | cons b rest2 =>
      have htail : FlatTimeline (b :: rest2) := flatTimeline_tail hflat
      have htotal : totalDurationOf (a :: b :: rest2) = totalDurationOf (b :: rest2) := by
        simp [totalDurationOf]
      rcases List.mem_cons.mp hmem with rfl | hmem2
      · have hab : item.endTime = b.startTime :=
          (List.chain'_cons.mp hflat.2).1
        have hb : b.startTime ≤ b.endTime := htail.1 b (List.mem_cons_self b rest2)
        have hbe : b.endTime ≤ totalDurationOf (b :: rest2) :=
          ih htail b (List.mem_cons_self b rest2)
        rw [htotal, hab]
        exact le_trans hb hbe
      · rw [htotal]
        exact ih htail item hmem2

/-- Past the end of a flat timeline no interval matches the search predicate
of `updateTimer`. -/
theorem find?_eq_none_of_total_le (timeline : List TimelineItem)
    (hflat : FlatTimeline timeline) (t : ℚ)
    (h : totalDurationOf timeline ≤ t) :
    timeline.find? (containsTime t) = none := by
  rw [List.find?_eq_none]
  intro item hmem
  have hle := endTime_le_total timeline hflat item hmem
  simp only [containsTime, Bool.and_eq_true, decide_eq_true_eq, not_and]
  intro _
  exact not_lt.mpr (le_trans hle h)

/-- In a flat timeline, every interval after the head starts no earlier than
the head ends. -/
theorem head_end_le_start_of_mem_tail {a : TimelineItem} :
    ∀ {rest : List TimelineItem}, FlatTimeline (a :: rest) →
      ∀ y ∈ rest, a.endTime ≤ y.startTime := by
  intro rest
  induction rest generalizing a with
  | nil => intro _ y hy; cases hy
  | cons b rest2 ih =>
    intro h y hy
    have hab : a.endTime = b.startTime := (List.chain'_cons.mp h.2).1
    have htail : FlatTimeline (b :: rest2) := flatTimeline_tail h
    rcases List.mem_cons.mp hy with rfl | hy2
    · exact le_of_eq hab
    · have h1 : b.endTime ≤ y.startTime := ih htail y hy2
      have h2 : b.startTime ≤ b.endTime := htail.1 b (List.mem_cons_self b rest2)
      calc a.endTime = b.startTime := hab
        _ ≤ b.endTime := h2
        _ ≤ y.startTime := h1

/-- In a flat timeline the intervals are pairwise disjoint, so `find?` with
the containment predicate locates exactly the containing interval. -/
theorem flat_find?_of_contains (t : ℚ) :
    ∀ (timeline : List TimelineItem), FlatTimeline timeline →
      ∀ y ∈ timeline, containsTime t y = true →
        timeline.find? (containsTime t) = some y := by
  intro timeline
  induction timeline with
  | nil => intro _ y hy; cases hy
  | cons a rest ih =>
    intro hflat y hy hc
    rcases List.mem_cons.mp hy with rfl | hy2
    · exact List.find?_cons_of_pos _ hc
    · have hstart : a.endTime ≤ y.startTime :=
        head_end_le_start_of_mem_tail hflat y hy2
      have hyc : y.startTime ≤ t ∧ t < y.endTime := by
        simpa [containsTime] using hc
      have ha : ¬ containsTime t a = true := by
        simp only [containsTime, Bool.and_eq_true, decide_eq_true_eq, not_and]
        intro _
        exact not_lt.mpr (le_trans hstart hyc.1)
      rw [List.find?_cons_of_neg _ ha]
      exact ih (flatTimeline_tail hflat) y hy2 hc

/-! ## Playback control handlers (Profile.tsx, PublicSequenceView) -/

/-- The component state touched by `handlePlayPause` and `handleSkipToTime`:
React state plus the refs `lastUpdateTimeRef`, `activeItemIdRef`,
`timelineRef` and `lastSpokenItemIdRef`. -/
structure PlaybackState where
  isPlaying : Bool
  currentTime : ℚ
  lastUpdateTime : ℚ
  activeItemId : Option String
  activeItemIdRef : Option String
  currentItemRemaining : ℚ
  timeline : List TimelineItem
  lastSpokenItemId : Option String
  deriving Repr, DecidableEq

/-- `handlePlayPause` of Profile.tsx (lines 1526-1552).  When starting, the
code recomputes `timelineRef.current = flattenSequenceToTimeline(sequence)`;
the source of `flattenSequenceToTimeline` (`src/lib/timeUtils`) is not among
the provided files, so its result is taken here as the argument `flattened`.
The `sequence` prop of `PublicSequenceView` is a loaded database row and is
always truthy, so the `if (sequence)` guard is taken. -/
def handlePlayPause (now : ℚ) (flattened : List TimelineItem)
    (s : PlaybackState) : PlaybackState :=
  if s.isPlaying = false then
    let s1 := { s with
      timeline := flattened
      lastUpdateTime := now
      lastSpokenItemId := none }
    let s2 :=
      if s.currentTime = 0 then
        match flattened.head? with
        | some firstItem =>
          if firstItem.startTime = 0 then
            { s1 with
              activeItemId := some firstItem.id
              currentItemRemaining := firstItem.endTime - firstItem.startTime
              activeItemIdRef := some firstItem.id }
          else s1
        | none => s1
      else s1
    { s2 with isPlaying := true }
  else
    { s with lastUpdateTime := now, isPlaying := false }

/-- `handleSkipToTime` of Profile.tsx (lines 1835-1864): sets `currentTime`
to the target, resets `lastUpdateTimeRef` to now, and recomputes the active
item by searching `timelineRef` for the interval containing the target
(returning early when the stored timeline is empty). -/
def handleSkipToTime (now startTime : ℚ) (s : PlaybackState) : PlaybackState :=
  let s1 := { s with currentTime := startTime, lastUpdateTime := now }
  if s1.timeline = [] then s1
  else
    match s1.timeline.find? (containsTime startTime) with
    | some currentItem =>
      { s1 with
        activeItemId := some currentItem.id
        currentItemRemaining := max 0 (currentItem.endTime - startTime)
        activeItemIdRef := some currentItem.id
        lastSpokenItemId := none }
    | none =>
      { s1 with activeItemId := none, currentItemRemaining := 0 }

/-! ## Timer effect lifecycle (Profile.tsx, PublicSequenceView) -/

/-- The state relevant to the timer effect of Profile.tsx (lines 1430-1524):
whether playback is active, whether `sequence.id` is truthy, and the value of
`intervalRef.current` (`none` models null; a cleared interval can no longer
fire). -/
structure TimerEffectState where
  isPlaying : Bool
  seqIdPresent : Bool
  intervalHandle : Option Nat
  deriving Repr, DecidableEq

/-- One settled run of the timer effect: when `isPlaying && sequence.id`
holds it installs a fresh interval and stores its handle into `intervalRef`
(any previous interval having been cleared by the effect cleanup);
otherwise it clears the stored interval and sets the ref to null.  Clearing
the handle is the only cancellation the effect performs: nothing else in the
state is modified by the else branch. -/
def runTimerEffect (newHandle : Nat) (s : TimerEffectState) : TimerEffectState :=
  if s.isPlaying && s.seqIdPresent then { s with intervalHandle := some newHandle }
  else { s with intervalHandle := none }

/-- C1: on every timer tick the playback position advances by the product of
the clock delta in seconds and the playback speed — `updateTimer` reads `now`,
computes `elapsed = (now - lastUpdateTime) / 1000`, stores `now` as the new
last-update time, and adds `elapsed * playbackSpeed` to the previous
`currentTime` (clamping to the total duration only at the end of the
timeline).  `updateTimer` takes no interval-period argument, so the fixed
100 ms period `intervalMs` is never added to the position. -/
theorem updateTimer_reads_clock_each_tick (now playbackSpeed : ℚ)
    (timeline : List TimelineItem) (s : TimerState) :
    (updateTimer now playbackSpeed timeline s).lastUpdateTime = now ∧
    ((updateTimer now playbackSpeed timeline s).currentTime
        = s.currentTime + (now - s.lastUpdateTime) / 1000 * playbackSpeed ∨
      ((updateTimer now playbackSpeed timeline s).currentTime
          = totalDurationOf timeline ∧
        totalDurationOf timeline
          ≤ s.currentTime + (now - s.lastUpdateTime) / 1000 * playbackSpeed)) := by
  simp only [updateTimer]
  split
  · exact ⟨rfl, Or.inl rfl⟩
  · split
    · rename_i hle
      exact ⟨rfl, Or.inr ⟨rfl, hle⟩⟩
    · exact ⟨rfl, Or.inl rfl⟩

/-- C2: for a non-empty flat timeline, a tick whose newly computed time
reaches the end of the last interval stops playback, clears the active item,
zeroes the remaining time, and sets `currentTime` to exactly the total
duration; in every case the tick leaves `currentTime` at or below the end of
the last interval. -/
theorem updateTimer_clamps_at_timeline_end (now playbackSpeed : ℚ)
    (timeline : List TimelineItem) (s : TimerState)
    (hne : timeline ≠ []) (hflat : FlatTimeline timeline) :
    (updateTimer now playbackSpeed timeline s).currentTime
        ≤ totalDurationOf timeline ∧
    (totalDurationOf timeline
        ≤ s.currentTime + (now - s.lastUpdateTime) / 1000 * playbackSpeed →
      updateTimer now playbackSpeed timeline s =
        { s with
          lastUpdateTime := now
          currentTime := totalDurationOf timeline
          isPlaying := false
          activeItemId := none
          currentItemRemaining := 0 }) := by
  constructor
  · simp only [updateTimer]
    split
    · rename_i it hf
      have hmem := List.mem_of_find?_eq_some hf
      have hp := List.find?_some hf
      simp only [containsTime, Bool.and_eq_true, decide_eq_true_eq] at hp
      have hend := endTime_le_total timeline hflat it hmem
      simpa using le_trans (le_of_lt hp.2) hend
    · split
      · simp
      · rename_i hlt
        simpa using le_of_not_le hlt
  · intro hend
    have hnone := find?_eq_none_of_total_le timeline hflat _ hend
    simp only [updateTimer, hnone]
    rw [if_pos hend]

/-- Closed instance of `updateTimer_clamps_at_timeline_end`: a single
five-second item, a tick of two clock seconds at speed 1 from position 4. -/
theorem updateTimer_clamps_at_timeline_end_witness :
    (updateTimer 2000 1 [⟨"a", 0, 5⟩] ⟨4, 0, true, some "a", 1⟩).currentTime ≤ 5 ∧
    updateTimer 2000 1 [⟨"a", 0, 5⟩] ⟨4, 0, true, some "a", 1⟩
      = ⟨5, 2000, false, none, 0⟩ := by
  have h := updateTimer_clamps_at_timeline_end 2000 1 [⟨"a", 0, 5⟩]
    ⟨4, 0, true, some "a", 1⟩ (List.cons_ne_nil _ _)
    ⟨by intro item hm; rcases List.mem_singleton.mp hm with rfl; norm_num,
      List.chain'_singleton _⟩
  have h2 := h.2 (by norm_num [totalDurationOf])
  exact ⟨h.1, h2⟩

/-- C10: the progress-bar value always lies in [0, 100]; it is 0 whenever the
total duration is not positive (the division is guarded), and it is capped at
exactly 100 when `currentTime` exceeds a positive total duration. -/
theorem progressValue_bounded (currentTime totalDuration : ℚ) :
    0 ≤ progressValue currentTime totalDuration ∧
    progressValue currentTime totalDuration ≤ 100 ∧
    (totalDuration ≤ 0 → progressValue currentTime totalDuration = 0) ∧
    (0 < totalDuration → totalDuration < currentTime →
      progressValue currentTime totalDuration = 100) := by
  unfold progressValue
  by_cases hpos : 0 < totalDuration
  · rw [if_pos hpos]
    refine ⟨le_min (by norm_num) (le_max_left 0 _), min_le_left _ _, ?_, ?_⟩
    · intro hle; exact absurd hpos (not_lt.mpr hle)
    · intro _ hlt
      have hdiv : 1 < currentTime / totalDuration := (one_lt_div hpos).mpr hlt
      have h100 : (100 : ℚ) < currentTime / totalDuration * 100 := by nlinarith
      rw [max_eq_right (by linarith), min_eq_left (le_of_lt h100)]
  · rw [if_neg hpos]
    exact ⟨le_refl 0, by norm_num, fun _ => rfl, fun h => absurd h hpos⟩

/-- Closed instance of `progressValue_bounded`: zero duration yields 0,
overshoot past a positive duration yields 100. -/
theorem progressValue_bounded_witness :
    progressValue 3 0 = 0 ∧ progressValue 7 5 = 100 :=
  ⟨(progressValue_bounded 3 0).2.2.1 (le_refl 0),
   (progressValue_bounded 7 5).2.2.2 (by norm_num) (by norm_num)⟩

/-- C3: pause, resume and seek adjust the stored offset only — pausing stops
playback with `currentTime` unchanged; resuming restarts playback with the
stored last-update timestamp set to the current clock reading, so no playback
time elapses across the paused span; seeking to a timeline item's start time
sets `currentTime` to that start time, resets the last-update timestamp to
now, and sets the active item to the unique interval of the flat timeline
whose [startTime, endTime) range contains the target, clearing it when no
interval does. -/
theorem pause_resume_seek_adjust_offset (now t : ℚ)
    (flattened : List TimelineItem) (s : PlaybackState) :
    (s.isPlaying = true →
      (handlePlayPause now flattened s).isPlaying = false ∧
      (handlePlayPause now flattened s).currentTime = s.currentTime) ∧
    (s.isPlaying = false →
      (handlePlayPause now flattened s).isPlaying = true ∧
      (handlePlayPause now flattened s).lastUpdateTime = now) ∧
    (∀ it ∈ s.timeline, t = it.startTime →
      (handleSkipToTime now t s).currentTime = t ∧
      (handleSkipToTime now t s).lastUpdateTime = now ∧
      (FlatTimeline s.timeline →
        (∀ y ∈ s.timeline, containsTime t y = true →
          (handleSkipToTime now t s).activeItemId = some y.id) ∧
        ((∀ y ∈ s.timeline, containsTime t y = false) →
          (handleSkipToTime now t s).activeItemId = none))) := by
  refine ⟨?_, ?_, ?_⟩
  · intro hp
    simp [handlePlayPause, hp]
  · intro hp
    simp only [handlePlayPause, hp, if_pos]
    refine ⟨trivial, ?_⟩
    split
    · split
      · split <;> rfl
      · rfl
    · rfl
  · intro it hit ht
    have hne : s.timeline ≠ [] := List.ne_nil_of_mem hit
    refine ⟨?_, ?_, ?_⟩
    · simp only [handleSkipToTime, if_neg hne]
      split <;> rfl
    · simp only [handleSkipToTime, if_neg hne]
      split <;> rfl
    · intro hflat
      constructor
      · intro y hy hyc
        have hfind := flat_find?_of_contains t s.timeline hflat y hy hyc
        simp [handleSkipToTime, if_neg hne, hfind]
      · intro hnoc
        have hfind : s.timeline.find? (containsTime t) = none :=
          List.find?_eq_none.mpr (fun x hx => by simp [hnoc x hx])
        simp [handleSkipToTime, if_neg hne, hfind]

/-- Closed instance of `pause_resume_seek_adjust_offset`: pausing a playing
state keeps `currentTime` at 7; resuming a paused state stamps the clock;
seeking to the start of the second interval of a two-item flat timeline
activates exactly that item. -/
theorem pause_resume_seek_adjust_offset_witness :
    (handlePlayPause 50 [] ⟨true, 7, 3, some "a", some "a", 2, [⟨"a", 0, 5⟩], none⟩).isPlaying = false ∧
    (handlePlayPause 50 [] ⟨true, 7, 3, some "a", some "a", 2, [⟨"a", 0, 5⟩], none⟩).currentTime = 7 ∧
    (handlePlayPause 60 [⟨"a", 0, 5⟩] ⟨false, 7, 3, none, none, 0, [], none⟩).isPlaying = true ∧
    (handlePlayPause 60 [⟨"a", 0, 5⟩] ⟨false, 7, 3, none, none, 0, [], none⟩).lastUpdateTime = 60 ∧
    (handleSkipToTime 80 5 ⟨false, 7, 3, none, none, 0, [⟨"a", 0, 5⟩, ⟨"b", 5, 9⟩], none⟩).currentTime = 5 ∧
    (handleSkipToTime 80 5 ⟨false, 7, 3, none, none, 0, [⟨"a", 0, 5⟩, ⟨"b", 5, 9⟩], none⟩).lastUpdateTime = 80 ∧
    (handleSkipToTime 80 5 ⟨false, 7, 3, none, none, 0, [⟨"a", 0, 5⟩, ⟨"b", 5, 9⟩], none⟩).activeItemId = some "b" := by
  have hpause := (pause_resume_seek_adjust_offset 50 0 []
    ⟨true, 7, 3, some "a", some "a", 2, [⟨"a", 0, 5⟩], none⟩).1 rfl
  have hresume := (pause_resume_seek_adjust_offset 60 0 [⟨"a", 0, 5⟩]
    ⟨false, 7, 3, none, none, 0, [], none⟩).2.1 rfl
  have hseek := (pause_resume_seek_adjust_offset 80 5 []
    ⟨false, 7, 3, none, none, 0, [⟨"a", 0, 5⟩, ⟨"b", 5, 9⟩], none⟩).2.2
    ⟨"b", 5, 9⟩ (by simp) rfl
  have hflat : FlatTimeline [⟨"a", 0, 5⟩, ⟨"b", 5, 9⟩] := by
    constructor
    · intro item hm
      rcases List.mem_cons.mp hm with rfl | hm2
      · norm_num
      · rcases List.mem_singleton.mp hm2 with rfl
        norm_num
    · exact List.chain'_cons.mpr ⟨rfl, List.chain'_singleton _⟩
  have hactive := (hseek.2.2 hflat).1 ⟨"b", 5, 9⟩ (by simp)
    (by simp [containsTime]; norm_num)
  exact ⟨hpause.1, hpause.2, hresume.1, hresume.2, hseek.1, hseek.2.1, hactive⟩

/-- C7: after any settled run of the timer effect, the interval handle is
null whenever playback is inactive (so no timer callback can fire
afterwards); given a loaded sequence id the handle is non-null exactly when
playback is active; and the effect changes nothing in the state besides the
handle — clearing it is the only cancellation performed. -/
theorem timer_effect_handle_invariant (newHandle : Nat) (s : TimerEffectState) :
    ((runTimerEffect newHandle s).isPlaying = s.isPlaying ∧
      (runTimerEffect newHandle s).seqIdPresent = s.seqIdPresent) ∧
    (s.isPlaying = false → (runTimerEffect newHandle s).intervalHandle = none) ∧
    (s.seqIdPresent = true →
      ((runTimerEffect newHandle s).intervalHandle ≠ none ↔ s.isPlaying = true)) := by
  refine ⟨⟨?_, ?_⟩, ?_, ?_⟩
  · simp only [runTimerEffect]; split <;> rfl
  · simp only [runTimerEffect]; split <;> rfl
  · intro hp
    simp [runTimerEffect, hp]
  · intro hseq
    cases hp : s.isPlaying with
    | false => simp [runTimerEffect, hp]
    | true => simp [runTimerEffect, hp, hseq]

/-- Closed instance of `timer_effect_handle_invariant`: a paused state ends
with a cleared handle, a playing state with a loaded sequence ends with a
non-null handle. -/
theorem timer_effect_handle_invariant_witness :
    (runTimerEffect 5 ⟨false, true, some 3⟩).intervalHandle = none ∧
    (runTimerEffect 5 ⟨true, true, none⟩).intervalHandle ≠ none := by
  have h1 := (timer_effect_handle_invariant 5 ⟨false, true, some 3⟩).2.1 rfl
  have h2 := ((timer_effect_handle_invariant 5 ⟨true, true, none⟩).2.2 rfl).mpr rfl
  exact ⟨h1, h2⟩

/-! ## Per-round substitutions in group blocks -/

/-- An entry of `groupBlock.itemSubstitutes`: a substitution applying in a
given round at a given base-item index.  JavaScript numbers used as indices
are modelled as `Int` (they may be negative); the item payload is kept
abstract in `α` since `getEffectiveItemsForRound` never inspects it. -/
structure ItemSubstitute (α : Type) where
  round : Int
  itemIndex : Int
  substituteItem : α
  deriving Repr, DecidableEq

/-- The fields of a group block read by `getEffectiveItemsForRound`: the base
`items` array and the optional `itemSubstitutes` array
(`groupBlock.itemSubstitutes || []`). -/
structure GroupBlock (α : Type) where
  items : List α
  itemSubstitutes : Option (List (ItemSubstitute α))
  deriving Repr, DecidableEq

/-- One step of the `forEach` in `getEffectiveItemsForRound`: assign
`effectiveItems[substitute.itemIndex] = substitute.substituteItem` when
`substitute.itemIndex >= 0 && substitute.itemIndex < effectiveItems.length`,
and do nothing otherwise. -/
def applySubstitute {α : Type} (acc : List α) (substitute : ItemSubstitute α) :
    List α :=
  if 0 ≤ substitute.itemIndex ∧ substitute.itemIndex < (acc.length : Int) then
    acc.set substitute.itemIndex.toNat substitute.substituteItem
  else acc

/-- `getEffectiveItemsForRound` of Profile.tsx (lines 1909-1925, with
identical copies at Profile.tsx line 1595 and in the sequence-library
component): filters `itemSubstitutes` down to the requested round and applies
each matching substitution in order to a copy of the base items. -/
def getEffectiveItemsForRound {α : Type} (groupBlock : GroupBlock α)
    (round : Int) : List α :=
  let itemSubstitutes := groupBlock.itemSubstitutes.getD []
  let roundSubstitutes := itemSubstitutes.filter (fun s => s.round == round)
  roundSubstitutes.foldl applySubstitute groupBlock.items

theorem applySubstitute_length {α : Type} (acc : List α)
    (s : ItemSubstitute α) : (applySubstitute acc s).length = acc.length := by
  unfold applySubstitute
  split
  · exact List.length_set acc _ _
  · rfl

theorem foldl_applySubstitute_length {α : Type} :
    ∀ (subs : List (ItemSubstitute α)) (acc : List α),
      (subs.foldl applySubstitute acc).length = acc.length := by
  intro subs
  induction subs with
  | nil => intro acc; rfl
  | cons s rest ih =>
    intro acc
    rw [List.foldl_cons, ih (applySubstitute acc s), applySubstitute_length]

theorem applySubstitute_getElem?_ne {α : Type} (acc : List α)
    (s : ItemSubstitute α) (i : Nat) (h : s.itemIndex ≠ (i : Int)) :
    (applySubstitute acc s)[i]? = acc[i]? := by
  unfold applySubstitute
  split
  · rename_i hc
    refine List.getElem?_set_ne ?_
    intro heq
    apply h
    rw [← heq, Int.toNat_of_nonneg hc.1]
  · rfl

theorem foldl_applySubstitute_getElem?_of_none {α : Type} :
    ∀ (subs : List (ItemSubstitute α)) (acc : List α) (i : Nat),
      (∀ s ∈ subs, s.itemIndex ≠ (i : Int)) →
      (subs.foldl applySubstitute acc)[i]? = acc[i]? := by
  intro subs
  induction subs with
  | nil => intro acc i _; rfl
  | cons s rest ih =>
    intro acc i hno
    rw [List.foldl_cons,
      ih (applySubstitute acc s) i (fun s' h => hno s' (List.mem_cons_of_mem _ h)),
      applySubstitute_getElem?_ne acc s i (hno s (List.mem_cons_self s rest))]

theorem foldl_applySubstitute_getElem?_of_some {α : Type} :
    ∀ (subs : List (ItemSubstitute α)) (acc : List α) (i : Nat),
      i < acc.length →
      (∃ s ∈ subs, s.itemIndex = (i : Int)) →
      ∃ s ∈ subs, s.itemIndex = (i : Int) ∧
        (subs.foldl applySubstitute acc)[i]? = some s.substituteItem := by
  intro subs
  induction subs with
  | nil =>
    intro acc i _ hex
    obtain ⟨s, hm, _⟩ := hex
    cases hm
  | cons s rest ih =>
    intro acc i hi hex
    rw [List.foldl_cons]
    by_cases hrest : ∃ s' ∈ rest, s'.itemIndex = (i : Int)
    · obtain ⟨s', hmem, hidx, heq⟩ :=
        ih (applySubstitute acc s) i (by rw [applySubstitute_length]; exact hi) hrest
      exact ⟨s', List.mem_cons_of_mem _ hmem, hidx, heq⟩
    · have hs : s.itemIndex = (i : Int) := by
        obtain ⟨s₀, hm, hidx⟩ := hex
        rcases List.mem_cons.mp hm with rfl | hm2
        · exact hidx
        · exact absurd ⟨s₀, hm2, hidx⟩ hrest
      have hnorest : ∀ s' ∈ rest, s'.itemIndex ≠ (i : Int) :=
        fun s' h hc => hrest ⟨s', h, hc⟩
      have h1 := foldl_applySubstitute_getElem?_of_none rest
        (applySubstitute acc s) i hnorest
      have h2 : (applySubstitute acc s)[i]? = some s.substituteItem := by
        unfold applySubstitute
        rw [if_pos ⟨by rw [hs]; exact Int.natCast_nonneg i,
          by rw [hs]; exact_mod_cast hi⟩, hs, Int.toNat_natCast]
        exact List.getElem?_set_eq_of_lt _ hi
      exact ⟨s, List.mem_cons_self s rest, hs, h1.trans h2⟩

theorem foldl_applySubstitute_filter_inRange {α : Type} :
    ∀ (subs : List (ItemSubstitute α)) (acc : List α) (n : Nat),
      acc.length = n →
      ((subs.filter (fun s =>
          decide (0 ≤ s.itemIndex) && decide (s.itemIndex < (n : Int)))).foldl
        applySubstitute acc)
        = subs.foldl applySubstitute acc := by
  intro subs
  induction subs with
  | nil => intro acc n _; rfl
  | cons s rest ih =>
    intro acc n hlen
    by_cases hin : 0 ≤ s.itemIndex ∧ s.itemIndex < (n : Int)
    · rw [List.filter_cons_of_pos (by simpa using hin), List.foldl_cons,
        List.foldl_cons]
      exact ih (applySubstitute acc s) n (by rw [applySubstitute_length]; exact hlen)
    · rw [List.filter_cons_of_neg (by simpa using hin), List.foldl_cons]
      have hskip : applySubstitute acc s = acc := by
        unfold applySubstitute
        rw [if_neg (by rw [hlen]; exact hin)]
      rw [hskip]
      exact ih acc n hlen

/-- C4: for every group block and round, `getEffectiveItemsForRound` returns
a list of exactly the length of the base items; position `i` holds the
substitute item of a substitution matching the round at index `i` when one
exists in `itemSubstitutes`, and the base item at `i` otherwise; and
substitutions whose `itemIndex` is negative or not below the base-item count
have no effect on the result. -/
theorem getEffectiveItemsForRound_spec {α : Type} (groupBlock : GroupBlock α)
    (round : Int) :
    (getEffectiveItemsForRound groupBlock round).length
        = groupBlock.items.length ∧
    (∀ i : Nat, i < groupBlock.items.length →
      ((¬ ∃ s ∈ groupBlock.itemSubstitutes.getD [],
          s.round = round ∧ s.itemIndex = (i : Int)) →
        (getEffectiveItemsForRound groupBlock round)[i]?
          = groupBlock.items[i]?) ∧
      ((∃ s ∈ groupBlock.itemSubstitutes.getD [],
          s.round = round ∧ s.itemIndex = (i : Int)) →
        ∃ s ∈ groupBlock.itemSubstitutes.getD [],
          s.round = round ∧ s.itemIndex = (i : Int) ∧
          (getEffectiveItemsForRound groupBlock round)[i]?
            = some s.substituteItem)) ∧
    getEffectiveItemsForRound
      ⟨groupBlock.items, some ((groupBlock.itemSubstitutes.getD []).filter
        (fun s => decide (0 ≤ s.itemIndex) &&
          decide (s.itemIndex < (groupBlock.items.length : Int))))⟩ round
      = getEffectiveItemsForRound groupBlock round := by
  refine ⟨?_, ?_, ?_⟩
  · exact foldl_applySubstitute_length _ _
  · intro i hi
    constructor
    · intro hno
      refine foldl_applySubstitute_getElem?_of_none _ _ i ?_
      intro s hs hc
      obtain ⟨hmem, hr⟩ := List.mem_filter.mp hs
      exact hno ⟨s, hmem, by simpa using hr, hc⟩
    · intro hex
      obtain ⟨s, hmem, hr, hidx⟩ := hex
      have hmemf : s ∈ (groupBlock.itemSubstitutes.getD []).filter
          (fun s => s.round == round) :=
        List.mem_filter.mpr ⟨hmem, by simpa using hr⟩
      obtain ⟨s', hmem', hidx', heq⟩ :=
        foldl_applySubstitute_getElem?_of_some _ groupBlock.items i hi
          ⟨s, hmemf, hidx⟩
      obtain ⟨hmem'2, hr'⟩ := List.mem_filter.mp hmem'
      exact ⟨s', hmem'2, by simpa using hr', hidx', heq⟩
  · show ((((groupBlock.itemSubstitutes.getD []).filter _).filter _).foldl
      applySubstitute groupBlock.items) = _
    rw [List.filter_filter]
    have hcomm : ((groupBlock.itemSubstitutes.getD []).filter
        (fun s => (s.round == round) &&
          (decide (0 ≤ s.itemIndex) &&
            decide (s.itemIndex < (groupBlock.items.length : Int)))))
        = (((groupBlock.itemSubstitutes.getD []).filter
            (fun s => s.round == round)).filter
          (fun s => decide (0 ≤ s.itemIndex) &&
            decide (s.itemIndex < (groupBlock.items.length : Int)))) := by
      rw [List.filter_filter]
      congr 1
      funext s
      rw [Bool.and_comm]
    rw [hcomm]
    exact foldl_applySubstitute_filter_inRange _ _ _ rfl

/-- Closed instance of `getEffectiveItemsForRound_spec`: three base items
with one in-range substitution for round 2 at index 1, one for a different
round, and two out-of-range substitutions for round 2. -/
theorem getEffectiveItemsForRound_spec_witness :
    (getEffectiveItemsForRound
      ⟨["x", "y", "z"], some [⟨2, 1, "p"⟩, ⟨1, 0, "q"⟩, ⟨2, 5, "r"⟩, ⟨2, -1, "w"⟩]⟩
      2).length = 3 ∧
    (getEffectiveItemsForRound
      ⟨["x", "y", "z"], some [⟨2, 1, "p"⟩, ⟨1, 0, "q"⟩, ⟨2, 5, "r"⟩, ⟨2, -1, "w"⟩]⟩
      2)[0]? = some "x" ∧
    (∃ s ∈ ([⟨2, 1, "p"⟩, ⟨1, 0, "q"⟩, ⟨2, 5, "r"⟩, ⟨2, -1, "w"⟩] :
        List (ItemSubstitute String)),
      s.round = 2 ∧ s.itemIndex = (1 : Int) ∧
      (getEffectiveItemsForRound
        ⟨["x", "y", "z"], some [⟨2, 1, "p"⟩, ⟨1, 0, "q"⟩, ⟨2, 5, "r"⟩, ⟨2, -1, "w"⟩]⟩
        2)[1]? = some s.substituteItem) := by
  have h := getEffectiveItemsForRound_spec
    (⟨["x", "y", "z"], some [⟨2, 1, "p"⟩, ⟨1, 0, "q"⟩, ⟨2, 5, "r"⟩, ⟨2, -1, "w"⟩]⟩ :
      GroupBlock String) 2
  refine ⟨h.1, ?_, ?_⟩
  · have h0 := (h.2.1 0 (by decide)).1 (by decide)
    exact h0.trans rfl
  · exact (h.2.1 1 (by decide)).2 ⟨⟨2, 1, "p"⟩, by decide, by decide, by decide⟩

/-! ## Backend CRUD wrappers (supabaseService.ts, userProfileService.ts)

Each service method performs a single `await supabase...` call, destructures
`{ data, error }`, and either throws or returns a transform of `data`.  The
hosted backend is an external collaborator: it is modelled as a stream of
responses, and a method is a decision tree that issues queries against that
stream, so that the number of queries issued is a provable quantity. -/

/-- A PostgREST error object as inspected by the wrappers
(`error.code`, `error.message`). -/
structure PostgrestError where
  code : String
  message : String
  deriving Repr, DecidableEq

/-- The destructured result of one backend call: `{ data, error }`. -/
structure DbResponse (δ : Type) where
  data : Option δ
  error : Option PostgrestError
  deriving Repr, DecidableEq

/-- A thrown JavaScript value: the backend error re-thrown as-is
(`throw error`), or a fresh `Error` built from a message string
(`throw new Error(message)`). -/
inductive Thrown where
  | backend (e : PostgrestError)
  | jsError (message : String)
  deriving Repr, DecidableEq

/-- A service method as a decision tree over backend responses: `query k`
issues one backend query and continues on its response; `ret r` finishes
with a returned value or a thrown error. -/
inductive Svc (δ ρ : Type) where
  | query (k : DbResponse δ → Svc δ ρ)
  | ret (r : Except Thrown ρ)

/-- Runs a service method against a stream of backend responses (the i-th
query receives `backend i`) and counts the queries issued. -/
def runSvc {δ ρ : Type} (backend : Nat → DbResponse δ) :
    Svc δ ρ → Nat → Except Thrown ρ × Nat
  | .ret r, _ => (r, 0)
  | .query k, i =>
    let rest := runSvc backend (k (backend i)) (i + 1)
    (rest.1, rest.2 + 1)

/-- A backend whose every response is the given one. -/
def constBackend {δ : Type} (resp : DbResponse δ) : Nat → DbResponse δ :=
  fun _ => resp

/-- The thrown value `x` carries the backend error `e`: it is `e` itself, or
a new `Error` whose message contains the message of `e`. -/
def ErrorCarries (x : Thrown) (e : PostgrestError) : Prop :=
  x = .backend e ∨ ∃ p q, x = .jsError (p ++ e.message ++ q)

/-- The common shape of the plain CRUD wrappers: one query, then
`if (error) throw error` and, on success, a pure transform of the
response. -/
def throwingQuery {δ ρ : Type} (g : DbResponse δ → ρ) : Svc δ ρ :=
  .query fun resp =>
    match resp.error with
    | some e => .ret (.error (.backend e))
    | none => .ret (.ok (g resp))

/-- The common shape of the four single-record lookups
(`sequenceService.getById`, `sequenceService.getByShareId`,
`userProfileService.getByUserId`, `userProfileService.getByShareId`): one
`.single()` query, `if (error.code === 'PGRST116') return null`, otherwise
`throw error`, and `return data` on success. -/
def singleLookup {δ : Type} : Svc δ (Option δ) :=
  .query fun resp =>
    match resp.error with
    | some e =>
      if e.code = "PGRST116" then .ret (.ok none)
      else .ret (.error (.backend e))
    | none => .ret (.ok resp.data)

/-- Row of the `poses` table (interface `Pose` of supabase.ts). -/
structure Pose where
  id : String
  name : String
  created_at : String
  updated_at : String
  deriving Repr, DecidableEq

/-- Row of the `pose_variations` table (interface `PoseVariation` of
supabase.ts, plus the `image_url` column added by migration and read by
`dbToAppVariation`). -/
structure DBPoseVariation where
  id : String
  pose_id : String
  name : String
  is_default : Bool
  image_url : Option String
  created_at : String
  updated_at : String
  deriving Repr, DecidableEq

/-- The application-side variation shape produced by `dbToAppVariation` in
supabaseService.ts. -/
structure PoseVariation where
  id : String
  poseId : String
  name : String
  isDefault : Bool
  imageUrl : Option String
  deriving Repr, DecidableEq

/-- Row of the `sequences` table (interface `Sequence` of supabase.ts; the
JSON `sections` payload is never inspected by the wrappers and is omitted
here). -/
structure Sequence where
  id : String
  user_id : String
  name : String
  share_id : Option String
  deriving Repr, DecidableEq

/-- Row of the `user_profiles` table as read by the lookup wrappers of
userProfileService.ts (no field is inspected by them). -/
structure UserProfile where
  id : String
  user_id : String
  name : String
  bio : String
  email : String
  share_id : Option String
  deriving Repr, DecidableEq

/-- JavaScript `value || null` on a nullable string: null and the empty
string collapse to null. -/
def jsOrNull (o : Option String) : Option String :=
  match o with
  | some s => if s = "" then none else some s
  | none => none

/-- `dbToAppVariation` of supabaseService.ts. -/
def dbToAppVariation (dbVariation : DBPoseVariation) : PoseVariation :=
  { id := dbVariation.id
    poseId := dbVariation.pose_id
    name := dbVariation.name
    isDefault := dbVariation.is_default
    imageUrl := jsOrNull dbVariation.image_url }

namespace poseService

/-- `poseService.getAll`: select poses ordered by name; `data || []`. -/
def getAll : Svc (List Pose) (List Pose) :=
  throwingQuery fun resp => resp.data.getD []

/-- `poseService.create`: insert and return the created row. -/
def create : Svc Pose (Option Pose) :=
  throwingQuery fun resp => resp.data

/-- `poseService.update`: update by id and return the updated row. -/
def update : Svc Pose (Option Pose) :=
  throwingQuery fun resp => resp.data

/-- `poseService.delete`: delete by id; only the error is inspected. -/
def delete : Svc Unit Unit :=
  throwingQuery fun _ => ()

end poseService

namespace poseVariationService

/-- `poseVariationService.getAll`: `(data || []).map(dbToAppVariation)`. -/
def getAll : Svc (List DBPoseVariation) (List PoseVariation) :=
  throwingQuery fun resp => (resp.data.getD []).map dbToAppVariation

/-- `poseVariationService.create`: insert the converted row and return
`dbToAppVariation(data)`. -/
def create : Svc DBPoseVariation (Option PoseVariation) :=
  throwingQuery fun resp => resp.data.map dbToAppVariation

/-- `poseVariationService.update` (supabaseService.ts lines 101-139): on a
backend error it throws a new `Error` whose message embeds the backend
message; on success it returns `dbToAppVariation(data)`.  The console
logging has no effect on the result and is not modelled. -/
def update : Svc DBPoseVariation (Option PoseVariation) :=
  .query fun resp =>
    match resp.error with
    | some e => .ret (.error (.jsError
        ("Failed to update variation: " ++ e.message ++
          ". Make sure the image_url column exists in the pose_variations table.")))
    | none => .ret (.ok (resp.data.map dbToAppVariation))

/-- `poseVariationService.delete`: delete by id; only the error is
inspected. -/
def delete : Svc Unit Unit :=
  throwingQuery fun _ => ()

end poseVariationService

namespace sequenceService

/-- `sequenceService.getAll`: select the sequences of a user; `data || []`. -/
def getAll : Svc (List Sequence) (List Sequence) :=
  throwingQuery fun resp => resp.data.getD []

/-- `sequenceService.getById` (supabaseService.ts lines 276-289). -/
def getById : Svc Sequence (Option Sequence) :=
  singleLookup

/-- `sequenceService.create`: insert and return the created row. -/
def create : Svc Sequence (Option Sequence) :=
  throwingQuery fun resp => resp.data

/-- `sequenceService.update`: update by id and user and return the row. -/
def update : Svc Sequence (Option Sequence) :=
  throwingQuery fun resp => resp.data

/-- `sequenceService.delete`: delete by id and user; only the error is
inspected. -/
def delete : Svc Unit Unit :=
  throwingQuery fun _ => ()

/-- `sequenceService.getByShareId` (supabaseService.ts lines 363-375). -/
def getByShareId : Svc Sequence (Option Sequence) :=
  singleLookup

end sequenceService

namespace userProfileService

/-- `userProfileService.getByUserId` (userProfileService.ts lines 24-36). -/
def getByUserId : Svc UserProfile (Option UserProfile) :=
  singleLookup

/-- `userProfileService.getByShareId` (userProfileService.ts lines 38-50). -/
def getByShareId : Svc UserProfile (Option UserProfile) :=
  singleLookup

end userProfileService

theorem runSvc_throwingQuery {δ ρ : Type} (g : DbResponse δ → ρ)
    (backend : Nat → DbResponse δ) :
    runSvc backend (throwingQuery g) 0
      = (match (backend 0).error with
         | some e => (Except.error (Thrown.backend e), 1)
         | none => (Except.ok (g (backend 0)), 1)) := by
  cases h : (backend 0).error <;> simp [throwingQuery, runSvc, h]

theorem throwingQuery_queries_once {δ ρ : Type} (g : DbResponse δ → ρ) :
    ∀ backend : Nat → DbResponse δ,
      (runSvc backend (throwingQuery g) 0).2 = 1 := by
  intro backend
  rw [runSvc_throwingQuery]
  cases (backend 0).error <;> rfl

theorem throwingQuery_raises {δ ρ : Type} (g : DbResponse δ → ρ) :
    ∀ (e : PostgrestError) (d : Option δ),
      ∃ x, (runSvc (constBackend ⟨d, some e⟩) (throwingQuery g) 0).1
          = Except.error x ∧ ErrorCarries x e := by
  intro e d
  exact ⟨.backend e, by rw [runSvc_throwingQuery]; rfl, Or.inl rfl⟩

theorem runSvc_singleLookup {δ : Type} (resp : DbResponse δ) :
    runSvc (constBackend resp) (singleLookup (δ := δ)) 0
      = (match resp.error with
         | some e =>
           if e.code = "PGRST116" then (Except.ok none, 1)
           else (Except.error (Thrown.backend e), 1)
         | none => (Except.ok resp.data, 1)) := by
  cases h : resp.error with
  | none => simp [singleLookup, runSvc, constBackend, h]
  | some e =>
    by_cases hc : e.code = "PGRST116" <;>
      simp [singleLookup, runSvc, constBackend, h, hc]

theorem singleLookup_queries_once {δ : Type} :
    ∀ backend : Nat → DbResponse δ,
      (runSvc backend (singleLookup (δ := δ)) 0).2 = 1 := by
  intro backend
  show (runSvc backend (Svc.query _) 0).2 = 1
  cases h : (backend 0).error with
  | none => simp [singleLookup, runSvc, h]
  | some e =>
    by_cases hc : e.code = "PGRST116" <;> simp [singleLookup, runSvc, h, hc]

/-- The behaviour of a single-record lookup on a well-formed response (a
successful `.single()` call always carries a row): null exactly on error
code PGRST116, a thrown backend error on any other error code. -/
theorem singleLookup_null_iff {δ : Type} (resp : DbResponse δ)
    (hwf : resp.error = none → resp.data.isSome) :
    ((runSvc (constBackend resp) (singleLookup (δ := δ)) 0).1 = Except.ok none
      ↔ ∃ e, resp.error = some e ∧ e.code = "PGRST116") ∧
    (∀ e, resp.error = some e → e.code ≠ "PGRST116" →
      (runSvc (constBackend resp) (singleLookup (δ := δ)) 0).1
        = Except.error (Thrown.backend e)) := by
  rw [runSvc_singleLookup]
  cases h : resp.error with
  | none =>
    obtain ⟨d, hd⟩ := Option.isSome_iff_exists.mp (hwf h)
    constructor
    · simp [hd]
    · intro e he
      exact Option.noConfusion he
  | some e =>
    by_cases hc : e.code = "PGRST116"
    · constructor
      · simp [hc]
      · intro e' he' hcode
        exact absurd ((Option.some_inj.mp he') ▸ hc) hcode
    · constructor
      · simp [hc]
      · intro e' he' _
        rw [← Option.some_inj.mp he']
        simp [hc]

/-- C5: every invocation of the CRUD wrappers getAll, create, update and
delete of poseService, poseVariationService and sequenceService issues
exactly one backend query, and when the backend responds with an error the
wrapper raises it to the caller — as-is or wrapped in a new `Error` carrying
the backend message — still after exactly one query, so no retry, backoff or
recovery is performed. -/
theorem crud_wrappers_query_once_and_raise :
    ((∀ backend, (runSvc backend poseService.getAll 0).2 = 1) ∧
      ∀ (e : PostgrestError) (d : Option (List Pose)),
        ∃ x, (runSvc (constBackend ⟨d, some e⟩) poseService.getAll 0).1
            = Except.error x ∧ ErrorCarries x e) ∧
    ((∀ backend, (runSvc backend poseService.create 0).2 = 1) ∧
      ∀ (e : PostgrestError) (d : Option Pose),
        ∃ x, (runSvc (constBackend ⟨d, some e⟩) poseService.create 0).1
            = Except.error x ∧ ErrorCarries x e) ∧
    ((∀ backend, (runSvc backend poseService.update 0).2 = 1) ∧
      ∀ (e : PostgrestError) (d : Option Pose),
        ∃ x, (runSvc (constBackend ⟨d, some e⟩) poseService.update 0).1
            = Except.error x ∧ ErrorCarries x e) ∧
    ((∀ backend, (runSvc backend poseService.delete 0).2 = 1) ∧
      ∀ (e : PostgrestError) (d : Option Unit),
        ∃ x, (runSvc (constBackend ⟨d, some e⟩) poseService.delete 0).1
            = Except.error x ∧ ErrorCarries x e) ∧
    ((∀ backend, (runSvc backend poseVariationService.getAll 0).2 = 1) ∧
      ∀ (e : PostgrestError) (d : Option (List DBPoseVariation)),
        ∃ x, (runSvc (constBackend ⟨d, some e⟩) poseVariationService.getAll 0).1
            = Except.error x ∧ ErrorCarries x e) ∧
    ((∀ backend, (runSvc backend poseVariationService.create 0).2 = 1) ∧
      ∀ (e : PostgrestError) (d : Option DBPoseVariation),
        ∃ x, (runSvc (constBackend ⟨d, some e⟩) poseVariationService.create 0).1
            = Except.error x ∧ ErrorCarries x e) ∧
    ((∀ backend, (runSvc backend poseVariationService.update 0).2 = 1) ∧
      ∀ (e : PostgrestError) (d : Option DBPoseVariation),
        ∃ x, (runSvc (constBackend ⟨d, some e⟩) poseVariationService.update 0).1
            = Except.error x ∧ ErrorCarries x e) ∧
    ((∀ backend, (runSvc backend poseVariationService.delete 0).2 = 1) ∧
      ∀ (e : PostgrestError) (d : Option Unit),
        ∃ x, (runSvc (constBackend ⟨d, some e⟩) poseVariationService.delete 0).1
            = Except.error x ∧ ErrorCarries x e) ∧
    ((∀ backend, (runSvc backend sequenceService.getAll 0).2 = 1) ∧
      ∀ (e : PostgrestError) (d : Option (List Sequence)),
        ∃ x, (runSvc (constBackend ⟨d, some e⟩) sequenceService.getAll 0).1
            = Except.error x ∧ ErrorCarries x e) ∧
    ((∀ backend, (runSvc backend sequenceService.create 0).2 = 1) ∧
      ∀ (e : PostgrestError) (d : Option Sequence),
        ∃ x, (runSvc (constBackend ⟨d, some e⟩) sequenceService.create 0).1
            = Except.error x ∧ ErrorCarries x e) ∧
    ((∀ backend, (runSvc backend sequenceService.update 0).2 = 1) ∧
      ∀ (e : PostgrestError) (d : Option Sequence),
        ∃ x, (runSvc (constBackend ⟨d, some e⟩) sequenceService.update 0).1
            = Except.error x ∧ ErrorCarries x e) ∧
    ((∀ backend, (runSvc backend sequenceService.delete 0).2 = 1) ∧
      ∀ (e : PostgrestError) (d : Option Unit),
        ∃ x, (runSvc (constBackend ⟨d, some e⟩) sequenceService.delete 0).1
            = Except.error x ∧ ErrorCarries x e) := by
  refine ⟨⟨throwingQuery_queries_once _, throwingQuery_raises _⟩,
    ⟨throwingQuery_queries_once _, throwingQuery_raises _⟩,
    ⟨throwingQuery_queries_once _, throwingQuery_raises _⟩,
    ⟨throwingQuery_queries_once _, throwingQuery_raises _⟩,
    ⟨throwingQuery_queries_once _, throwingQuery_raises _⟩,
    ⟨throwingQuery_queries_once _, throwingQuery_raises _⟩,
    ⟨?_, ?_⟩,
    ⟨throwingQuery_queries_once _, throwingQuery_raises _⟩,
    ⟨throwingQuery_queries_once _, throwingQuery_raises _⟩,
    ⟨throwingQuery_queries_once _, throwingQuery_raises _⟩,
    ⟨throwingQuery_queries_once _, throwingQuery_raises _⟩,
    ⟨throwingQuery_queries_once _, throwingQuery_raises _⟩⟩
  · intro backend
    cases h : (backend 0).error <;>
      simp [poseVariationService.update, runSvc, h]
  · intro e d
    refine ⟨.jsError ("Failed to update variation: " ++ e.message ++
      ". Make sure the image_url column exists in the pose_variations table."),
      ?_, Or.inr ⟨"Failed to update variation: ",
        ". Make sure the image_url column exists in the pose_variations table.",
        rfl⟩⟩
    simp [poseVariationService.update, runSvc, constBackend]

/-- C6: the four single-record lookups return null exactly when the backend
reports error code PGRST116 (row not found) and raise every other backend
error, so a caller never receives an exception for a merely missing record.
A well-formed response of a `.single()` call carries a row whenever it
carries no error. -/
theorem single_lookups_null_iff_missing :
    (∀ resp : DbResponse Sequence, (resp.error = none → resp.data.isSome) →
      (((runSvc (constBackend resp) sequenceService.getById 0).1
          = Except.ok none)
        ↔ ∃ e, resp.error = some e ∧ e.code = "PGRST116") ∧
      (∀ e, resp.error = some e → e.code ≠ "PGRST116" →
        (runSvc (constBackend resp) sequenceService.getById 0).1
          = Except.error (Thrown.backend e))) ∧
    (∀ resp : DbResponse Sequence, (resp.error = none → resp.data.isSome) →
      (((runSvc (constBackend resp) sequenceService.getByShareId 0).1
          = Except.ok none)
        ↔ ∃ e, resp.error = some e ∧ e.code = "PGRST116") ∧
      (∀ e, resp.error = some e → e.code ≠ "PGRST116" →
        (runSvc (constBackend resp) sequenceService.getByShareId 0).1
          = Except.error (Thrown.backend e))) ∧
    (∀ resp : DbResponse UserProfile, (resp.error = none → resp.data.isSome) →
      (((runSvc (constBackend resp) userProfileService.getByUserId 0).1
          = Except.ok none)
        ↔ ∃ e, resp.error = some e ∧ e.code = "PGRST116") ∧
      (∀ e, resp.error = some e → e.code ≠ "PGRST116" →
        (runSvc (constBackend resp) userProfileService.getByUserId 0).1
          = Except.error (Thrown.backend e))) ∧
    (∀ resp : DbResponse UserProfile, (resp.error = none → resp.data.isSome) →
      (((runSvc (constBackend resp) userProfileService.getByShareId 0).1
          = Except.ok none)
        ↔ ∃ e, resp.error = some e ∧ e.code = "PGRST116") ∧
      (∀ e, resp.error = some e → e.code ≠ "PGRST116" →
        (runSvc (constBackend resp) userProfileService.getByShareId 0).1
          = Except.error (Thrown.backend e))) :=
  ⟨fun resp hwf => singleLookup_null_iff resp hwf,
   fun resp hwf => singleLookup_null_iff resp hwf,
   fun resp hwf => singleLookup_null_iff resp hwf,
   fun resp hwf => singleLookup_null_iff resp hwf⟩

/-- Closed instance of `single_lookups_null_iff_missing`: a PGRST116
response yields null from each lookup; a different error code is raised. -/
theorem single_lookups_null_iff_missing_witness :
    (runSvc (constBackend (⟨none, some ⟨"PGRST116", "m"⟩⟩ : DbResponse Sequence))
      sequenceService.getById 0).1 = Except.ok none ∧
    (runSvc (constBackend (⟨none, some ⟨"500", "boom"⟩⟩ : DbResponse Sequence))
      sequenceService.getByShareId 0).1
        = Except.error (Thrown.backend ⟨"500", "boom"⟩) ∧
    (runSvc (constBackend (⟨none, some ⟨"PGRST116", "m"⟩⟩ : DbResponse UserProfile))
      userProfileService.getByUserId 0).1 = Except.ok none ∧
    (runSvc (constBackend (⟨none, some ⟨"500", "boom"⟩⟩ : DbResponse UserProfile))
      userProfileService.getByShareId 0).1
        = Except.error (Thrown.backend ⟨"500", "boom"⟩) := by
  refine ⟨?_, ?_, ?_, ?_⟩
  · exact ((single_lookups_null_iff_missing.1
      ⟨none, some ⟨"PGRST116", "m"⟩⟩ (fun h => Option.noConfusion h)).1).mpr
      ⟨⟨"PGRST116", "m"⟩, rfl, rfl⟩
  · exact (single_lookups_null_iff_missing.2.1
      ⟨none, some ⟨"500", "boom"⟩⟩ (fun h => Option.noConfusion h)).2
      ⟨"500", "boom"⟩ rfl (by decide)
  · exact ((single_lookups_null_iff_missing.2.2.1
      ⟨none, some ⟨"PGRST116", "m"⟩⟩ (fun h => Option.noConfusion h)).1).mpr
      ⟨⟨"PGRST116", "m"⟩, rfl, rfl⟩
  · exact (single_lookups_null_iff_missing.2.2.2
      ⟨none, some ⟨"500", "boom"⟩⟩ (fun h => Option.noConfusion h)).2
      ⟨"500", "boom"⟩ rfl (by decide)

/-! ## Data-export utility script (export-poses-variations) -/

/-- The `format` constant of the export script:
`process.argv.includes('--format') ? process.argv[process.argv.indexOf('--format') + 1] || 'json' : 'json'`.
JavaScript `indexOf` locates the first occurrence; indexing past the end
yields undefined, and `|| 'json'` collapses undefined and the empty string
to the default. -/
def selectedFormat (argv : List String) : String :=
  if "--format" ∈ argv then
    match argv[argv.indexOf "--format" + 1]? with
    | some s => if s = "" then "json" else s
    | none => "json"
  else "json"

/-- The output format the script writes. -/
inductive ExportFormat where
  | csv
  | json
  deriving Repr, DecidableEq

/-- The dispatch at the end of `exportData`:
`if (format === 'csv') exportAsCSV(...) else exportAsJSON(...)`. -/
def exportFileFormat (argv : List String) : ExportFormat :=
  if selectedFormat argv = "csv" then .csv else .json

/-- C8: the script writes a CSV file exactly when the value following the
first `--format` flag is the string csv; with the flag absent, the flag
last on the command line, or any other following value (including the empty
string), it writes JSON. -/
theorem export_format_csv_iff (argv : List String) :
    exportFileFormat argv = ExportFormat.csv ↔
      ("--format" ∈ argv ∧
        argv[argv.indexOf "--format" + 1]? = some "csv") := by
  unfold exportFileFormat selectedFormat
  by_cases hc : "--format" ∈ argv
  · rw [if_pos hc]
    cases hg : argv[argv.indexOf "--format" + 1]? with
    | none => simp [hc]
    | some s =>
      by_cases hs : s = ""
      · subst hs
        simp [hc]
      · by_cases hcsv : s = "csv"
        · subst hcsv
          simp [hc]
        · simp [hc, hs, hcsv]
  · rw [if_neg hc]
    simp [hc]

/-- The observable outcome of the export script preamble: an early
`process.exit(1)`, or a constructed backend client (queries are only
possible once the client exists). -/
inductive ScriptStart where
  | exited (code : Nat)
  | clientCreated (url key : String)
  deriving Repr, DecidableEq

/-- JavaScript truthiness of an optional environment string: undefined and
the empty string are falsy. -/
def envTruthy (o : Option String) : Bool :=
  match o with
  | some s => s != ""
  | none => false

/-- The preamble of the export script: reads `VITE_SUPABASE_URL` and
`VITE_SUPABASE_ANON_KEY` from the environment, and
`if (!supabaseUrl || !supabaseAnonKey)` prints an error and calls
`process.exit(1)`; only otherwise does `createClient(url, key)` run.  The
printed message has no further effect and is not modelled. -/
def scriptStart (supabaseUrl supabaseAnonKey : Option String) : ScriptStart :=
  if !envTruthy supabaseUrl || !envTruthy supabaseAnonKey then .exited 1
  else .clientCreated (supabaseUrl.getD "") (supabaseAnonKey.getD "")

/-- C9: when either service-credential environment variable is unset or
empty, the export script exits with status 1 and in particular never
constructs the backend client, hence issues no query. -/
theorem missing_credentials_exit_before_client
    (supabaseUrl supabaseAnonKey : Option String)
    (h : supabaseUrl = none ∨ supabaseUrl = some "" ∨
      supabaseAnonKey = none ∨ supabaseAnonKey = some "") :
    scriptStart supabaseUrl supabaseAnonKey = .exited 1 ∧
    ∀ url key, scriptStart supabaseUrl supabaseAnonKey
      ≠ .clientCreated url key := by
  have hexit : scriptStart supabaseUrl supabaseAnonKey = .exited 1 := by
    rcases h with rfl | rfl | rfl | rfl <;>
      simp [scriptStart, envTruthy]
  refine ⟨hexit, ?_⟩
  intro url key hcontra
  rw [hexit] at hcontra
  exact ScriptStart.noConfusion hcontra

/-- Closed instance of `missing_credentials_exit_before_client`: a missing
URL and an empty key each force the early exit. -/
theorem missing_credentials_exit_before_client_witness :
    scriptStart none (some "anon-key") = ScriptStart.exited 1 ∧
    scriptStart (some "https://example.supabase.co") (some "")
      = ScriptStart.exited 1 :=
  ⟨(missing_credentials_exit_before_client none (some "anon-key")
      (Or.inl rfl)).1,
   (missing_credentials_exit_before_client (some "https://example.supabase.co")
      (some "") (Or.inr (Or.inr (Or.inr rfl)))).1⟩

end SculptArchitect
